import Mathlib

/-!
Verification of the fraud-risk scoring core of the
automated-healthcare-fraud-risk-scoring repository.

The numeric code of the repository works on floating-point values; the
embedding uses exact arithmetic (`ℚ` for the stages whose code is purely
rational, `ℝ` where the pipeline's standard deviation introduces square
roots).  Pandas/NaN results of a division by zero are modelled with
`Option` (`none` = NaN).
-/

/- ============================================================
   Risk bands — src/inference/batch_score_claims.py, lines 21–32
   ============================================================ -/

/-- The discrete risk bands written to the output table. -/
inductive RiskBand where
  | LOW
  | MEDIUM
  | HIGH
deriving DecidableEq, Repr

/-- Severity order of the bands: LOW < MEDIUM < HIGH. -/
def severity : RiskBand → ℕ
  | .LOW => 0
  | .MEDIUM => 1
  | .HIGH => 2

/-- `assign_risk_band` from src/inference/batch_score_claims.py (lines 21–32):
`if score >= 0.95: HIGH elif score >= 0.85: MEDIUM else: LOW`.
Generic over an ordered field so that it can be applied both to the exact
rational embedding and to the real-valued pipeline scores. -/
def assign_risk_band {α : Type} [LinearOrderedField α] (score : α) : RiskBand :=
  if 95 / 100 ≤ score then .HIGH
  else if 85 / 100 ≤ score then .MEDIUM
  else .LOW

/- ============================================================
   Batch min-max normalization —
   src/inference/batch_score_claims.py, lines 84–93
   ============================================================ -/

/-- `results_df["fraud_risk_score"].min()`: minimum of a batch of scores
(the empty batch is given the junk value 0; pandas would give NaN there,
and the claims only concern non-empty batches). -/
def batch_min {α : Type} [LinearOrderedField α] : List α → α
  | [] => 0
  | x :: xs => xs.foldl min x

/-- `results_df["fraud_risk_score"].max()`: maximum of a batch of scores. -/
def batch_max {α : Type} [LinearOrderedField α] : List α → α
  | [] => 0
  | x :: xs => xs.foldl max x

/-- The normalization block of `batch_score_providers`
(src/inference/batch_score_claims.py, lines 84–93):

    if score_max > score_min:
        scores = (scores - score_min) / (score_max - score_min)
    else:
        scores = 0.0
-/
def normalize_scores {α : Type} [LinearOrderedField α] (raw : List α) : List α :=
  if batch_max raw > batch_min raw then
    raw.map (fun s => (s - batch_min raw) / (batch_max raw - batch_min raw))
  else
    raw.map (fun _ => 0)

/- Helper lemmas about batch_min / batch_max. -/

lemma foldl_min_le_init {α : Type} [LinearOrderedField α] (xs : List α) (a : α) :
    xs.foldl min a ≤ a := by
  induction xs generalizing a with
  | nil => simp
  | cons x xs ih =>
      calc (x :: xs).foldl min a = xs.foldl min (min a x) := rfl
        _ ≤ min a x := ih (min a x)
        _ ≤ a := min_le_left _ _

lemma foldl_min_le_mem {α : Type} [LinearOrderedField α] (xs : List α) (a x : α)
    (hx : x ∈ xs) : xs.foldl min a ≤ x := by
  induction xs generalizing a with
  | nil => cases hx
  | cons y ys ih =>
      rcases List.mem_cons.mp hx with h | h
      · subst h
        calc (x :: ys).foldl min a = ys.foldl min (min a x) := rfl
          _ ≤ min a x := foldl_min_le_init ys (min a x)
          _ ≤ x := min_le_right _ _
      · exact ih (min a y) h

lemma init_le_foldl_max {α : Type} [LinearOrderedField α] (xs : List α) (a : α) :
    a ≤ xs.foldl max a := by
  induction xs generalizing a with
  | nil => simp
  | cons x xs ih =>
      calc a ≤ max a x := le_max_left _ _
        _ ≤ xs.foldl max (max a x) := ih (max a x)
        _ = (x :: xs).foldl max a := rfl

lemma mem_le_foldl_max {α : Type} [LinearOrderedField α] (xs : List α) (a x : α)
    (hx : x ∈ xs) : x ≤ xs.foldl max a := by
  induction xs generalizing a with
  | nil => cases hx
  | cons y ys ih =>
      rcases List.mem_cons.mp hx with h | h
      · subst h
        calc x ≤ max a x := le_max_right _ _
          _ ≤ ys.foldl max (max a x) := init_le_foldl_max ys (max a x)
          _ = (x :: ys).foldl max a := rfl
      · exact ih (max a y) h

lemma batch_min_le_mem {α : Type} [LinearOrderedField α] (raw : List α) (x : α)
    (hx : x ∈ raw) : batch_min raw ≤ x := by
  cases raw with
  | nil => cases hx
  | cons y ys =>
      rcases List.mem_cons.mp hx with h | h
      · subst h; exact foldl_min_le_init ys x
      · exact foldl_min_le_mem ys y x h

lemma mem_le_batch_max {α : Type} [LinearOrderedField α] (raw : List α) (x : α)
    (hx : x ∈ raw) : x ≤ batch_max raw := by
  cases raw with
  | nil => cases hx
  | cons y ys =>
      rcases List.mem_cons.mp hx with h | h
      · subst h; exact init_le_foldl_max ys x
      · exact mem_le_foldl_max ys y x h

lemma foldl_min_mem {α : Type} [LinearOrderedField α] (xs : List α) (a : α) :
    xs.foldl min a ∈ a :: xs := by
  induction xs generalizing a with
  | nil => simp
  | cons x xs ih =>
      have h := ih (min a x)
      rcases List.mem_cons.mp h with h1 | h1
      · rcases min_choice a x with hc | hc
        · exact List.mem_cons.mpr (Or.inl (by rw [show (x :: xs).foldl min a = xs.foldl min (min a x) from rfl, h1, hc]))
        · exact List.mem_cons.mpr (Or.inr (List.mem_cons.mpr (Or.inl (by rw [show (x :: xs).foldl min a = xs.foldl min (min a x) from rfl, h1, hc]))))
      · exact List.mem_cons.mpr (Or.inr (List.mem_cons.mpr (Or.inr (by rw [show (x :: xs).foldl min a = xs.foldl min (min a x) from rfl]; exact h1))))

lemma foldl_max_mem {α : Type} [LinearOrderedField α] (xs : List α) (a : α) :
    xs.foldl max a ∈ a :: xs := by
  induction xs generalizing a with
  | nil => simp
  | cons x xs ih =>
      have h := ih (max a x)
      rcases List.mem_cons.mp h with h1 | h1
      · rcases max_choice a x with hc | hc
        · exact List.mem_cons.mpr (Or.inl (by rw [show (x :: xs).foldl max a = xs.foldl max (max a x) from rfl, h1, hc]))
        · exact List.mem_cons.mpr (Or.inr (List.mem_cons.mpr (Or.inl (by rw [show (x :: xs).foldl max a = xs.foldl max (max a x) from rfl, h1, hc]))))
      · exact List.mem_cons.mpr (Or.inr (List.mem_cons.mpr (Or.inr (by rw [show (x :: xs).foldl max a = xs.foldl max (max a x) from rfl]; exact h1))))

lemma batch_min_mem {α : Type} [LinearOrderedField α] (raw : List α) (h : raw ≠ []) :
    batch_min raw ∈ raw := by
  cases raw with
  | nil => exact absurd rfl h
  | cons y ys => exact foldl_min_mem ys y

lemma batch_max_mem {α : Type} [LinearOrderedField α] (raw : List α) (h : raw ≠ []) :
    batch_max raw ∈ raw := by
  cases raw with
  | nil => exact absurd rfl h
  | cons y ys => exact foldl_max_mem ys y

lemma batch_min_le_batch_max {α : Type} [LinearOrderedField α] (raw : List α)
    (h : raw ≠ []) : batch_min raw ≤ batch_max raw := by
  cases raw with
  | nil => exact absurd rfl h
  | cons y ys =>
      have h1 : batch_min (y :: ys) ≤ y := batch_min_le_mem _ y (List.mem_cons_self y ys)
      have h2 : y ≤ batch_max (y :: ys) := mem_le_batch_max _ y (List.mem_cons_self y ys)
      exact le_trans h1 h2

/- ============================================================
   Claims C1, C2, C3, C10 — risk scorer stage
   ============================================================ -/

/-- C1: for every non-empty batch of raw scores, the normalization block of
`batch_score_providers` assigns each entity `(raw - min) / (max - min)` when
`max > min`, assigns every entity 0 when `max = min` (one row or all-identical
scores included), is total (never raises, no NaN in the exact embedding),
and every normalized score lies in [0,1]. -/
theorem normalize_scores_spec (raw : List ℚ) (hne : raw ≠ []) :
    (batch_max raw > batch_min raw →
      normalize_scores raw =
        raw.map (fun s => (s - batch_min raw) / (batch_max raw - batch_min raw))) ∧
    (batch_max raw = batch_min raw →
      normalize_scores raw = raw.map (fun _ => 0)) ∧
    (∀ s ∈ normalize_scores raw, 0 ≤ s ∧ s ≤ 1) := by
  refine ⟨?_, ?_, ?_⟩
  · intro h
    simp [normalize_scores, h]
  · intro h
    simp [normalize_scores, h]
  · intro s hs
    by_cases h : batch_max raw > batch_min raw
    · rw [normalize_scores, if_pos h] at hs
      rcases List.mem_map.mp hs with ⟨x, hx, hxs⟩
      have hpos : (0:ℚ) < batch_max raw - batch_min raw := sub_pos.mpr h
      have hlo : batch_min raw ≤ x := batch_min_le_mem raw x hx
      have hhi : x ≤ batch_max raw := mem_le_batch_max raw x hx
      constructor
      · rw [← hxs]
        exact div_nonneg (sub_nonneg.mpr hlo) (le_of_lt hpos)
      · rw [← hxs]
        rw [div_le_one hpos]
        exact sub_le_sub_right hhi _
    · rw [normalize_scores, if_neg h] at hs
      rcases List.mem_map.mp hs with ⟨x, _, hxs⟩
      rw [← hxs]
      norm_num

/-- Witness for C1 at the concrete batch [3, 1, 2]. -/
theorem normalize_scores_spec_witness :
    ([3, 1, 2] : List ℚ) ≠ [] ∧
    (∀ s ∈ normalize_scores ([3, 1, 2] : List ℚ), 0 ≤ s ∧ s ≤ 1) :=
  ⟨by decide, (normalize_scores_spec [3, 1, 2] (by decide)).2.2⟩

/-- C2: the band assignment function returns HIGH iff the normalized score is
at least 0.95, MEDIUM on [0.85, 0.95), LOW below 0.85; the thresholds 95/100
and 85/100 are fixed constants of the definition, independent of the data. -/
theorem assign_risk_band_thresholds (s : ℚ) :
    (95 / 100 ≤ s → assign_risk_band s = RiskBand.HIGH) ∧
    (85 / 100 ≤ s → s < 95 / 100 → assign_risk_band s = RiskBand.MEDIUM) ∧
    (s < 85 / 100 → assign_risk_band s = RiskBand.LOW) := by
  refine ⟨?_, ?_, ?_⟩
  · intro h
    simp [assign_risk_band, h]
  · intro h1 h2
    rw [assign_risk_band, if_neg (not_le.mpr h2), if_pos h1]
  · intro h
    rw [assign_risk_band, if_neg (not_le.mpr (lt_trans h (by norm_num))),
      if_neg (not_le.mpr h)]

/-- Witness for C2 at scores 1, 9/10 and 0. -/
theorem assign_risk_band_thresholds_witness :
    assign_risk_band (1 : ℚ) = RiskBand.HIGH ∧
    assign_risk_band (9 / 10 : ℚ) = RiskBand.MEDIUM ∧
    assign_risk_band (0 : ℚ) = RiskBand.LOW :=
  ⟨(assign_risk_band_thresholds 1).1 (by norm_num),
   (assign_risk_band_thresholds (9 / 10)).2.1 (by norm_num) (by norm_num),
   (assign_risk_band_thresholds 0).2.2 (by norm_num)⟩

/-- C3: band assignment is a pure, monotonic function of the normalized
score: whenever b ≤ a, the severity of a's band is at least the severity of
b's band (LOW < MEDIUM < HIGH). -/
theorem assign_risk_band_monotone (a b : ℚ) (h : b ≤ a) :
    severity (assign_risk_band b) ≤ severity (assign_risk_band a) := by
  unfold assign_risk_band
  by_cases hb1 : 95 / 100 ≤ b
  · rw [if_pos hb1, if_pos (le_trans hb1 h)]
  · rw [if_neg hb1]
    by_cases hb2 : 85 / 100 ≤ b
    · rw [if_pos hb2]
      by_cases ha1 : 95 / 100 ≤ a
      · rw [if_pos ha1]; simp [severity]
      · rw [if_neg ha1, if_pos (le_trans hb2 h)]
    · rw [if_neg hb2]
      by_cases ha1 : 95 / 100 ≤ a
      · rw [if_pos ha1]; simp [severity]
      · rw [if_neg ha1]
        by_cases ha2 : 85 / 100 ≤ a
        · rw [if_pos ha2]; simp [severity]
        · rw [if_neg ha2]

/-- Witness for C3 at the pair (1, 0). -/
theorem assign_risk_band_monotone_witness :
    severity (assign_risk_band (0 : ℚ)) ≤ severity (assign_risk_band (1 : ℚ)) :=
  assign_risk_band_monotone 1 0 (by norm_num)

/-- C10: in every batch whose raw scores are not all equal (min < max),
the normalization block maps an entity attaining the maximum to exactly 1
and an entity attaining the minimum to exactly 0, so the banded output
always contains a HIGH entity, regardless of absolute anomaly levels. -/
theorem nondegenerate_batch_has_high (raw : List ℚ)
    (h : batch_min raw < batch_max raw) :
    (1 : ℚ) ∈ normalize_scores raw ∧
    (0 : ℚ) ∈ normalize_scores raw ∧
    RiskBand.HIGH ∈ (normalize_scores raw).map assign_risk_band := by
  have hne : raw ≠ [] := by
    intro hnil
    rw [hnil] at h
    simp [batch_min, batch_max] at h
  have hpos : (0:ℚ) < batch_max raw - batch_min raw := sub_pos.mpr h
  have hmax : batch_max raw ∈ raw := batch_max_mem raw hne
  have hmin : batch_min raw ∈ raw := batch_min_mem raw hne
  have h1 : (1 : ℚ) ∈ normalize_scores raw := by
    rw [normalize_scores, if_pos h]
    exact List.mem_map.mpr ⟨batch_max raw, hmax, div_self (ne_of_gt hpos)⟩
  refine ⟨h1, ?_, ?_⟩
  · rw [normalize_scores, if_pos h]
    exact List.mem_map.mpr ⟨batch_min raw, hmin, by simp⟩
  · refine List.mem_map.mpr ⟨1, h1, ?_⟩
    simp [assign_risk_band]
    norm_num

/-- Witness for C10 at the concrete batch [0, 1]. -/
theorem nondegenerate_batch_has_high_witness :
    (1 : ℚ) ∈ normalize_scores ([0, 1] : List ℚ) ∧
    (0 : ℚ) ∈ normalize_scores ([0, 1] : List ℚ) ∧
    RiskBand.HIGH ∈ (normalize_scores ([0, 1] : List ℚ)).map assign_risk_band :=
  nondegenerate_batch_has_high [0, 1] (by decide)

/- ============================================================
   The fraud pipeline — src/pipelines/fraud_pipeline.py
   (construction), plus models built from the spec (sections
   4.1 and 4.2) for the sklearn stages, which are external to
   the repository.
   ============================================================ -/

/-- The pipeline object returned by `build_fraud_pipeline`
(src/pipelines/fraud_pipeline.py, lines 23-101): a median imputer, a
standard scaler and an isolation forest with `n_estimators = 200`, the
given `contamination` and the given `random_state`.  The imputation
strategy and the scaler carry no constructor parameters, so only the three
model hyperparameters are state. -/
structure FraudPipeline where
  n_estimators : ℕ
  contamination : ℚ
  random_state : ℕ

/-- `build_fraud_pipeline` (src/pipelines/fraud_pipeline.py, lines 23-101):
construction is total — the function performs no validation whatsoever and
hardcodes `n_estimators = 200`; tree count and subsample size cannot even
be supplied by a caller. -/
def build_fraud_pipeline (contamination : ℚ) (random_state : ℕ) : FraudPipeline :=
  { n_estimators := 200, contamination := contamination, random_state := random_state }

/-- Modelled from the spec: the explicit deterministic pseudo-random stream
("randomness must be derived deterministically from an explicit seed
parameter threaded through every stage", section 5).  One 64-bit linear
congruential step; the concrete constants are a modelling choice. -/
def lcg (s : ℕ) : ℕ := (6364136223846793005 * s + 1442695040888963407) % 2 ^ 64

/-- Ascending insertion of a value into a sorted list (used for medians). -/
def insert_asc {α : Type} [LinearOrder α] (a : α) : List α → List α
  | [] => [a]
  | b :: bs => if a ≤ b then a :: b :: bs else b :: insert_asc a bs

/-- Ascending insertion sort. -/
def sort_asc {α : Type} [LinearOrder α] (l : List α) : List α := l.foldr insert_asc []

/-- Modelled from the spec (section 4.1): the median imputation value of a
feature column — the sklearn `SimpleImputer(strategy="median")` named in
`build_fraud_pipeline` is not part of the repository.  Middle element of the
sorted observed values, average of the two middle elements for an even
count, 0 for an empty column. -/
def median (l : List ℚ) : ℚ :=
  let s := sort_asc l
  if s.length % 2 = 1 then s.getD (s.length / 2) 0
  else (s.getD (s.length / 2 - 1) 0 + s.getD (s.length / 2) 0) / 2

/-- Number of feature columns of a matrix (cells are `Option ℚ`; `none` is a
missing value). -/
def num_features (X : List (List (Option ℚ))) : ℕ := (X.headD []).length

/-- The observed (non-missing) values of column j. -/
def column_values (X : List (List (Option ℚ))) (j : ℕ) : List ℚ :=
  (X.map (fun r => r.getD j none)).filterMap id

/-- Modelled from the spec (section 4.1, fit): the stored per-feature
imputation medians. -/
def fit_medians (X : List (List (Option ℚ))) : List ℚ :=
  (List.range (num_features X)).map (fun j => median (column_values X j))

/-- Modelled from the spec (section 4.1, transform): replace the missing
values of a row by the stored medians. -/
def impute_row (medians : List ℚ) (row : List (Option ℚ)) : List ℚ :=
  (List.range medians.length).map (fun j => (row.getD j none).getD (medians.getD j 0))

/-- Mean of a rational column (0 for the empty column). -/
def qmean (l : List ℚ) : ℚ := l.sum / l.length

/-- Population variance of a rational column. -/
def qvariance (l : List ℚ) : ℚ := (l.map (fun v => (v - qmean l) ^ 2)).sum / l.length

/-- Column j of an imputed (fully numeric) matrix. -/
def columnq (X : List (List ℚ)) (j : ℕ) : List ℚ := X.map (fun r => r.getD j 0)

/-- Modelled from the spec (section 4.1, fit): the stored per-feature scaler
means. -/
def fit_means (X : List (List ℚ)) : List ℚ :=
  (List.range ((X.headD []).length)).map (fun j => qmean (columnq X j))

/-- Modelled from the spec (section 4.1, fit): the stored per-feature
standard deviations — square roots of the population variances. -/
noncomputable def fit_stds (X : List (List ℚ)) : List ℝ :=
  (List.range ((X.headD []).length)).map (fun j => Real.sqrt ((qvariance (columnq X j) : ℚ) : ℝ))

/-- Modelled from the spec (section 4.1, transform): standardize a row with
the stored parameters, `(value - mean) / std`; a feature whose stored std is
zero is only shifted by its mean (the documented identity transform). -/
noncomputable def scale_row (means : List ℚ) (stds : List ℝ) (row : List ℚ) : List ℝ :=
  (List.range means.length).map (fun j =>
    let v : ℝ := ((row.getD j 0 : ℚ) : ℝ)
    let m : ℝ := ((means.getD j 0 : ℚ) : ℝ)
    let s : ℝ := stds.getD j 0
    if s = 0 then v - m else (v - m) / s)

/-- Modelled from the spec (section 3, Tree): a binary partitioning tree;
each internal node holds a feature index and a split threshold, each leaf
the size of the subsample that reached it. -/
inductive ITree where
  | leaf (size : ℕ)
  | node (feat : ℕ) (thr : ℝ) (left right : ITree)

/-- Modelled from the spec (section 4.2): the harmonic number
H(n) = 1 + 1/2 + ... + 1/n appearing in the path-length adjustment. -/
def harmonic_sum (n : ℕ) : ℚ := ∑ i in Finset.range n, (1 : ℚ) / (i + 1)

/-- Modelled from the spec (section 4.2, scoring step 1):
`c(n) = 2·H(n-1) - 2(n-1)/n`, the expected path length of an unsuccessful
search in a binary tree of n points; 0 for n ≤ 1. -/
noncomputable def c_factor (n : ℕ) : ℝ :=
  if n ≤ 1 then 0 else 2 * ((harmonic_sum (n - 1) : ℚ) : ℝ) - 2 * ((n : ℝ) - 1) / n

/-- Modelled from the spec (section 4.2, build step 2): draw k rows of the
matrix using the explicit pseudo-random stream (sampling with replacement;
the spec leaves the sampling mode configurable). -/
def draw_rows (rows : List (List ℝ)) (rng : ℕ) : ℕ → List (List ℝ)
  | 0 => []
  | k + 1 =>
      let r := lcg rng
      rows.getD (r % rows.length) [] :: draw_rows rows r k

/-- Modelled from the spec (section 4.2, build step 2): recursively
partition a subsample; at a node, if the depth budget is exhausted or the
node holds at most one row, record a leaf with the node's row count;
otherwise pick a feature pseudo-randomly, pick a threshold pseudo-randomly
within the observed min/max of that feature among the node's rows, and
split the rows by the threshold. -/
noncomputable def build_tree : ℕ → List (List ℝ) → ℕ → ITree
  | _, rows, 0 => .leaf rows.length
  | rng, rows, fuel + 1 =>
      if rows.length ≤ 1 then .leaf rows.length
      else
        let nf := (rows.headD []).length
        let r1 := lcg rng
        let f := r1 % nf
        let col := rows.map (fun r => r.getD f 0)
        let lo := batch_min col
        let hi := batch_max col
        let r2 := lcg r1
        let thr := lo + (((r2 % 2 ^ 32 : ℕ) : ℝ) / 2 ^ 32) * (hi - lo)
        .node f thr
          (build_tree (lcg (r2 + 1)) (rows.filter (fun r => decide (r.getD f 0 < thr))) fuel)
          (build_tree (lcg (r2 + 2)) (rows.filter (fun r => decide (thr ≤ r.getD f 0))) fuel)

/-- Modelled from the spec (section 4.2, scoring step 1): the path length
h(x) of a row in one tree — the depth at which traversal stops, plus the
adjustment `c(size)` at the leaf. -/
noncomputable def path_length (x : List ℝ) : ITree → ℝ
  | .leaf size => c_factor size
  | .node f thr l r => 1 + (if x.getD f 0 < thr then path_length x l else path_length x r)

/-- Modelled from the spec: the subsample size ψ; the source leaves
sklearn's `max_samples="auto"`, i.e. `min 256 n`. -/
def sample_size_of (n : ℕ) : ℕ := min 256 n

/-- Modelled from the spec: the maximum tree depth, `⌈log₂ ψ⌉`. -/
def depth_budget (ψ : ℕ) : ℕ := Nat.clog 2 ψ

/-- The fitted pipeline (spec section 3, FitState and Ensemble): imputer
medians, scaler means/stds, the built trees, the subsample size, and the
contamination value — which the spec retains as metadata only. -/
structure FittedPipeline where
  medians : List ℚ
  means : List ℚ
  stds : List ℝ
  trees : List ITree
  sample_size : ℕ
  contamination : ℚ

/-- Modelled from the spec (sections 4.1-4.2): `pipeline.fit(X)` — capture
the imputer medians and scaler means/stds, then build `n_estimators` trees,
each from its own sub-seed derived from the master `random_state`. -/
noncomputable def pipeline_fit (p : FraudPipeline) (X : List (List (Option ℚ))) :
    FittedPipeline :=
  let medians := fit_medians X
  let Ximp := X.map (impute_row medians)
  let means := fit_means Ximp
  let stds := fit_stds Ximp
  let rows := Ximp.map (scale_row means stds)
  let ψ := sample_size_of rows.length
  { medians := medians
    means := means
    stds := stds
    trees := (List.range p.n_estimators).map (fun t =>
      let st := lcg (lcg p.random_state + t)
      build_tree (lcg st) (draw_rows rows st ψ) (depth_budget ψ))
    sample_size := ψ
    contamination := p.contamination }

/-- Modelled from the spec (section 4.2, scoring steps 1-3): the anomaly
score of one transformed row is `s(x) = 2^(-E[h(x)]/c(ψ))` with `E[h(x)]`
the average path length over the trees.  The model records the base-2
logarithm `-E[h(x)]/c(ψ)` of `s(x)`: `e ↦ 2^e` is strictly increasing, so
equality and order of raw scores are represented exactly while staying
inside field arithmetic. -/
noncomputable def raw_score (trees : List ITree) (ψ : ℕ) (x : List ℝ) : ℝ :=
  -((trees.map (path_length x)).sum / trees.length) / c_factor ψ

/-- Modelled from the spec: `pipeline.score_samples(X)` — transform every
row with the stored fit state and score it; sklearn's `score_samples`
returns the negated anomaly score (its callers in src negate it back). -/
noncomputable def pipeline_score_samples (f : FittedPipeline)
    (X : List (List (Option ℚ))) : List ℝ :=
  X.map (fun row =>
    -(raw_score f.trees f.sample_size (scale_row f.means f.stds (impute_row f.medians row))))

/- ============================================================
   Stability evaluator — src/training/evaluate_stability.py
   ============================================================ -/

/-- One stability run (src/training/evaluate_stability.py, lines 52-71):
build the pipeline with the given contamination and seed, fit it on the
matrix, and score the matrix (`scores = -pipeline.score_samples(X)`). -/
noncomputable def run_scores (X : List (List (Option ℚ))) (contamination : ℚ)
    (seed : ℕ) : List ℝ :=
  (pipeline_score_samples (pipeline_fit (build_fraud_pipeline contamination seed) X) X).map
    (fun v => -v)

/-- The collected per-run score lists of `evaluate_model_stability`
(lines 52-73; run i uses seed `base_random_state + i`). -/
noncomputable def stability_runs (X : List (List (Option ℚ))) (contamination : ℚ)
    (base n_runs : ℕ) : List (List ℝ) :=
  (List.range n_runs).map (fun i => run_scores X contamination (base + i))

/-- Mean of a real score vector (0 for the empty vector). -/
noncomputable def rmean (l : List ℝ) : ℝ := l.sum / l.length

/-- The centred cross-product sum Σ (xᵢ - mean x)(yᵢ - mean y) over the
common index range of two score vectors. -/
noncomputable def s_xy (x y : List ℝ) : ℝ :=
  ∑ i in Finset.range (min x.length y.length),
    (x.getD i 0 - rmean x) * (y.getD i 0 - rmean y)

/-- Modelled from the spec (section 4.4, correlation analysis): the pairwise
Pearson correlation `r = S_xy / sqrt(S_xx · S_yy)` — line 86 of
src/training/evaluate_stability.py delegates it to `pandas.DataFrame.corr`,
which is not part of the repository.  A zero-variance vector yields an
undefined (NaN) correlation, modelled as `none`. -/
noncomputable def pearson (x y : List ℝ) : Option ℝ :=
  if s_xy x x = 0 ∨ s_xy y y = 0 then none
  else some (s_xy x y / Real.sqrt (s_xy x x * s_xy y y))

/-- The run-by-run correlation matrix of the stability evaluator
(lines 80-87): entry (i, j) correlates run i's scores with run j's over the
pivoted entity-by-run matrix. -/
noncomputable def corr_matrix (runs : List (List ℝ)) (i j : ℕ) : Option ℝ :=
  pearson (runs.getD i []) (runs.getD j [])

/-- Descending insertion by score (`sort_values("score", ascending=False)`,
line 98; pandas' quicksort leaves the ordering of tied scores unspecified —
this model keeps ties in input order, one deterministic choice). -/
noncomputable def insert_desc (p : ℤ × ℝ) : List (ℤ × ℝ) → List (ℤ × ℝ)
  | [] => [p]
  | q :: qs => if q.2 < p.2 then p :: q :: qs else q :: insert_desc p qs

/-- Descending insertion sort of (provider id, score) pairs by score. -/
noncomputable def sort_desc (l : List (ℤ × ℝ)) : List (ℤ × ℝ) :=
  l.foldr insert_desc []

/-- The top-K provider set of one run (lines 96-102): sort the (id, score)
pairs by score descending, keep the first K rows (`head(top_n)`), and
collect the ids into a set. -/
noncomputable def top_set (ids : List ℤ) (scores : List ℝ) (K : ℕ) : Finset ℤ :=
  (((sort_desc (ids.zip scores)).take K).map Prod.fst).toFinset

/-- One adjacent-pair overlap (line 106):
`len(top_sets[i] & top_sets[i+1]) / top_n`. -/
noncomputable def top_overlap (A B : Finset ℤ) (K : ℕ) : ℝ :=
  ((A ∩ B).card : ℝ) / K

/-- The sequence of adjacent-run overlaps (lines 104-107). -/
noncomputable def top_overlaps (ids : List ℤ) (runs : List (List ℝ)) (K : ℕ) :
    List ℝ :=
  (List.range (runs.length - 1)).map (fun i =>
    top_overlap (top_set ids (runs.getD i []) K) (top_set ids (runs.getD (i + 1) []) K) K)

/-- The errors `evaluate_model_stability` can surface.  The spec's
`InvalidHyperparameter` never occurs in the source; `pd.concat` of an empty
collection raises `ValueError: No objects to concatenate`. -/
inductive EvalError where
  | invalidHyperparameter
  | noObjectsToConcatenate
deriving DecidableEq, Repr

/-- The outputs of one stability evaluation (spec section 3,
StabilityReport): the correlation matrix and the overlap sequence. -/
structure StabilityReport where
  corr : ℕ → ℕ → Option ℝ
  overlaps : List ℝ

/-- `evaluate_model_stability` (src/training/evaluate_stability.py,
lines 18-119), the parquet read externalized into the `ids`/`X` arguments:
run `n_runs` fit+score cycles with seeds `base + i`, then run the
correlation and overlap checks.  No hyperparameter is validated anywhere;
with `n_runs = 0` the loop collects nothing and `pd.concat` (line 73)
raises `ValueError: No objects to concatenate` — after the data was
already loaded. -/
noncomputable def evaluate_model_stability (ids : List ℤ)
    (X : List (List (Option ℚ))) (contamination : ℚ) (base n_runs top_n : ℕ) :
    Except EvalError StabilityReport :=
  let runs := stability_runs X contamination base n_runs
  if n_runs = 0 then .error .noObjectsToConcatenate
  else .ok { corr := corr_matrix runs, overlaps := top_overlaps ids runs top_n }

/- ============================================================
   Claims C4, C5, C6 — pipeline determinism, contamination,
   hyperparameter validation
   ============================================================ -/

/-- C4: determinism of the build-fit-score cycle — any two independently
built pipelines constructed from the same contamination and the same seed,
fitted on the same feature matrix, produce identical raw scores for every
entity.  In this embedding the cycle is a pure function of the explicit
seed (the spec's "no shared global random state"), so the two executions
coincide definitionally. -/
theorem build_fit_score_deterministic (X : List (List (Option ℚ))) (c : ℚ)
    (seed : ℕ) (p1 p2 : FraudPipeline)
    (h1 : p1 = build_fraud_pipeline c seed) (h2 : p2 = build_fraud_pipeline c seed) :
    pipeline_score_samples (pipeline_fit p1 X) X =
    pipeline_score_samples (pipeline_fit p2 X) X := by
  rw [h1, h2]

/-- Witness for C4: two builds with contamination 1/50 and seed 42 on a
one-row matrix. -/
theorem build_fit_score_deterministic_witness :
    pipeline_score_samples
      (pipeline_fit (build_fraud_pipeline (1 / 50) 42) [[some 1]]) [[some 1]] =
    pipeline_score_samples
      (pipeline_fit (build_fraud_pipeline (1 / 50) 42) [[some 1]]) [[some 1]] :=
  build_fit_score_deterministic [[some 1]] (1 / 50) 42 _ _ rfl rfl

/-- C5: the contamination hyperparameter does not alter the continuous
anomaly score — for every matrix, every seed and every two contamination
values, the build-fit-score cycle yields identical raw scores.  In the
fitted state contamination is metadata only and the scoring never reads
it. -/
theorem contamination_metadata_only (X : List (List (Option ℚ))) (seed : ℕ)
    (c1 c2 : ℚ) :
    pipeline_score_samples (pipeline_fit (build_fraud_pipeline c1 seed) X) X =
    pipeline_score_samples (pipeline_fit (build_fraud_pipeline c2 seed) X) X := rfl

/-- C6 counterexample: a run count of 0 does not fail fast with
InvalidHyperparameter at construction — the evaluation proceeds (the data
is loaded first, line 43 of src/training/evaluate_stability.py) and the
run dies at the concatenation stage (`pd.concat` of an empty collection,
line 73). -/
theorem no_invalid_hyperparameter_counterexample :
    evaluate_model_stability [] [] (1 / 50) 42 0 50 ≠
      Except.error EvalError.invalidHyperparameter ∧
    evaluate_model_stability [] [] (1 / 50) 42 0 50 =
      Except.error EvalError.noObjectsToConcatenate := by
  constructor
  · intro h
    rw [evaluate_model_stability] at h
    simp at h
  · rw [evaluate_model_stability]
    simp

/-- C6 amended: pipeline construction performs no hyperparameter
validation and never raises — `build_fraud_pipeline` accepts only
contamination and random_state and fixes the tree count at 200 (a
non-positive tree count or subsample size cannot even be supplied); a
non-positive run count is likewise not rejected at construction: the
stability evaluation fails only later, at the score-concatenation stage,
with `ValueError: No objects to concatenate`, never with
InvalidHyperparameter. -/
theorem no_hyperparameter_validation :
    (∀ (c : ℚ) (r : ℕ), build_fraud_pipeline c r =
      { n_estimators := 200, contamination := c, random_state := r }) ∧
    (∀ (ids : List ℤ) (X : List (List (Option ℚ))) (c : ℚ) (base K : ℕ),
      evaluate_model_stability ids X c base 0 K =
        Except.error EvalError.noObjectsToConcatenate) := by
  constructor
  · intro c r
    rfl
  · intro ids X c base K
    rw [evaluate_model_stability]
    simp

/- ============================================================
   Batch scoring — src/inference/batch_score_claims.py
   ============================================================ -/

/-- The feature frame read by `batch_score_providers`
(src/inference/batch_score_claims.py, lines 56-60), after the identifier
column is dropped: the feature column names, the provider ids, and one
cell row per provider. -/
structure InputFrame where
  columns : List String
  provider_ids : List ℤ
  rows : List (List (Option ℚ))

/-- The fitted artifact that `mlflow.sklearn.load_model` resolves (line
67): the training-time feature names plus the fitted pipeline state (spec
section 6, model artifact). -/
structure TrainedModel where
  feature_names : List String
  fitted : FittedPipeline

/-- The fatal error of the batch scorer that the claims concern. -/
inductive ScoreError where
  | schemaMismatch
deriving DecidableEq, Repr

/-- Modelled from the spec (section 4.2, error conditions): scoring with a
feature set that does not match the ensemble's training feature set fails
with a SchemaMismatch error before producing any score (sklearn's fitted
estimators raise on missing or unseen feature names; sklearn is not part
of the repository). -/
noncomputable def model_score_samples (m : TrainedModel) (cols : List String)
    (rows : List (List (Option ℚ))) : Except ScoreError (List ℝ) :=
  if cols = m.feature_names then
    .ok (rows.map (fun row =>
      -(raw_score m.fitted.trees m.fitted.sample_size
          (scale_row m.fitted.means m.fitted.stds (impute_row m.fitted.medians row)))))
  else .error .schemaMismatch

/-- `batch_score_providers` (src/inference/batch_score_claims.py, lines
35-128), with the parquet read and the mlflow model resolution
externalized into the `df` and `model` arguments: score
(`-model.score_samples(X)`), normalize, band, and only then write the four
output files (latest and dated snapshot, parquet and csv).  The file
writes happen after scoring in program order, so they appear only in the
success payload: an error value means zero output rows and zero files
written for the run. -/
noncomputable def batch_score_providers (df : InputFrame) (model : TrainedModel)
    (output_dir today : String) :
    Except ScoreError (List (ℤ × ℝ × RiskBand) × List String) :=
  match model_score_samples model df.columns df.rows with
  | .error e => .error e
  | .ok s =>
      let scores := s.map (fun v => -v)
      let normalized := normalize_scores scores
      .ok (df.provider_ids.zip (normalized.zip (normalized.map assign_risk_band)),
        [output_dir ++ "/provider_fraud_scores.parquet",
         output_dir ++ "/provider_fraud_scores.csv",
         output_dir ++ "/provider_fraud_scores_" ++ today ++ ".parquet",
         output_dir ++ "/provider_fraud_scores_" ++ today ++ ".csv"])

/-- C7: if batch scoring is invoked with feature columns that differ from
the training-time columns (e.g. a training-time column is missing), the
scoring call fails with SchemaMismatch and the run produces no output
rows and no output files — the write stage is never reached. -/
theorem schema_mismatch_aborts (df : InputFrame) (model : TrainedModel)
    (output_dir today : String) (h : df.columns ≠ model.feature_names) :
    batch_score_providers df model output_dir today =
      Except.error ScoreError.schemaMismatch := by
  rw [batch_score_providers, model_score_samples, if_neg h]

/-- Witness for C7: a frame missing the training-time column "b". -/
theorem schema_mismatch_aborts_witness :
    batch_score_providers
      { columns := ["a"], provider_ids := [1], rows := [[some 1]] }
      { feature_names := ["a", "b"],
        fitted := { medians := [], means := [], stds := [], trees := [],
                    sample_size := 0, contamination := 1 / 50 } }
      "data/outputs" "2026-10-12" = Except.error ScoreError.schemaMismatch :=
  schema_mismatch_aborts _ _ _ _ (by decide)

/- ============================================================
   Claim C8 — correlation matrix of the stability evaluator
   ============================================================ -/

lemma s_xy_comm (x y : List ℝ) : s_xy x y = s_xy y x := by
  rw [s_xy, s_xy, min_comm]
  exact Finset.sum_congr rfl (fun i _ => mul_comm _ _)

lemma s_xy_self (x : List ℝ) :
    s_xy x x = ∑ i in Finset.range x.length, (x.getD i 0 - rmean x) ^ 2 := by
  rw [s_xy, min_self]
  exact Finset.sum_congr rfl (fun i _ => (sq (x.getD i 0 - rmean x)).symm)

lemma s_xy_self_nonneg (x : List ℝ) : 0 ≤ s_xy x x := by
  rw [s_xy_self]
  exact Finset.sum_nonneg (fun i _ => sq_nonneg _)

/-- Cauchy-Schwarz for the centred cross-product sums. -/
lemma s_xy_sq_le (x y : List ℝ) : s_xy x y ^ 2 ≤ s_xy x x * s_xy y y := by
  have cs := Finset.sum_mul_sq_le_sq_mul_sq (Finset.range (min x.length y.length))
    (fun i => x.getD i 0 - rmean x) (fun i => y.getD i 0 - rmean y)
  rw [s_xy]
  refine le_trans cs (mul_le_mul ?_ ?_ (Finset.sum_nonneg fun i _ => sq_nonneg _) ?_)
  · rw [s_xy_self]
    refine Finset.sum_le_sum_of_subset_of_nonneg
      (Finset.range_subset.mpr (min_le_left _ _)) ?_
    intro i _ _
    exact sq_nonneg _
  · rw [s_xy_self]
    refine Finset.sum_le_sum_of_subset_of_nonneg
      (Finset.range_subset.mpr (min_le_right _ _)) ?_
    intro i _ _
    exact sq_nonneg _
  · rw [s_xy_self]
    exact Finset.sum_nonneg (fun i _ => sq_nonneg _)

lemma pearson_comm (x y : List ℝ) : pearson x y = pearson y x := by
  rw [pearson, pearson, s_xy_comm x y, mul_comm]
  by_cases hc : s_xy x x = 0 ∨ s_xy y y = 0
  · rw [if_pos hc, if_pos (Or.symm hc)]
  · rw [if_neg hc, if_neg (fun h => hc (Or.symm h))]

lemma pearson_self (x : List ℝ) (h : s_xy x x ≠ 0) : pearson x x = some 1 := by
  rw [pearson, if_neg (by simp [h])]
  rw [Real.sqrt_mul_self (s_xy_self_nonneg x), div_self h]

lemma pearson_self_none (x : List ℝ) (h : s_xy x x = 0) : pearson x x = none := by
  rw [pearson, if_pos (Or.inl h)]

lemma pearson_bounds (x y : List ℝ) (r : ℝ) (h : pearson x y = some r) :
    -1 ≤ r ∧ r ≤ 1 := by
  rw [pearson] at h
  by_cases hc : s_xy x x = 0 ∨ s_xy y y = 0
  · rw [if_pos hc] at h
    cases h
  · rw [if_neg hc] at h
    injection h with h
    push_neg at hc
    have hxx : 0 < s_xy x x := lt_of_le_of_ne (s_xy_self_nonneg x) (Ne.symm hc.1)
    have hyy : 0 < s_xy y y := lt_of_le_of_ne (s_xy_self_nonneg y) (Ne.symm hc.2)
    have hsqrt : 0 < Real.sqrt (s_xy x x * s_xy y y) :=
      Real.sqrt_pos.mpr (mul_pos hxx hyy)
    have habs : |s_xy x y / Real.sqrt (s_xy x x * s_xy y y)| ≤ 1 := by
      rw [abs_div, abs_of_nonneg (Real.sqrt_nonneg _), div_le_one hsqrt]
      exact Real.abs_le_sqrt (s_xy_sq_le x y)
    rw [← h]
    exact abs_le.mp habs

/-- C8 amended: for every stability evaluation, the run-by-run Pearson
correlation matrix is symmetric and every defined entry lies in [-1, 1];
a diagonal entry (i, i) is exactly 1 whenever run i's scores have nonzero
variance, and is NaN (undefined, modelled `none`) — not 1 — when run i's
scores are all equal. -/
theorem corr_matrix_spec (runs : List (List ℝ)) (i j : ℕ) :
    (corr_matrix runs i j = corr_matrix runs j i) ∧
    (s_xy (runs.getD i []) (runs.getD i []) ≠ 0 → corr_matrix runs i i = some 1) ∧
    (s_xy (runs.getD i []) (runs.getD i []) = 0 → corr_matrix runs i i = none) ∧
    (∀ r : ℝ, corr_matrix runs i j = some r → -1 ≤ r ∧ r ≤ 1) :=
  ⟨pearson_comm _ _, fun h => pearson_self _ h, fun h => pearson_self_none _ h,
   fun r h => pearson_bounds _ _ r h⟩

lemma s_xy_zero_one : s_xy ([0, 1] : List ℝ) [0, 1] = 1 / 2 := by
  have hm : rmean ([0, 1] : List ℝ) = 1 / 2 := by
    rw [rmean]
    norm_num
  rw [s_xy, hm]
  norm_num [Finset.sum_range_succ]

/-- Witness for C8 at the single-run list [[0, 1]]. -/
theorem corr_matrix_spec_witness :
    corr_matrix [[0, 1]] 0 0 = some 1 ∧ (-1 ≤ (1 : ℝ) ∧ (1 : ℝ) ≤ 1) := by
  have hne : s_xy (([[0, 1]] : List (List ℝ)).getD 0 []) (([[0, 1]] : List (List ℝ)).getD 0 []) ≠ 0 := by
    show s_xy ([0, 1] : List ℝ) [0, 1] ≠ 0
    rw [s_xy_zero_one]
    norm_num
  have h1 := (corr_matrix_spec [[0, 1]] 0 0).2.1 hne
  exact ⟨h1, (corr_matrix_spec [[0, 1]] 0 0).2.2.2 1 h1⟩

lemma map_pair_eq {α β : Type} (f : α → β) (r : α) : [r, r].map f = [f r, f r] := rfl

lemma run_scores_pair (r : List (Option ℚ)) (c : ℚ) (s : ℕ) :
    ∃ a : ℝ, run_scores [r, r] c s = [a, a] := by
  rw [run_scores, pipeline_score_samples]
  simp only [List.map_cons, List.map_nil]
  exact ⟨_, rfl⟩

lemma s_xy_pair_self (a : ℝ) : s_xy [a, a] [a, a] = 0 := by
  have hm : rmean [a, a] = a := by
    rw [rmean]
    show (a + (a + 0)) / (2 : ℝ) = a
    ring
  rw [s_xy, hm]
  norm_num [Finset.sum_range_succ]

/-- C8 counterexample: a stability evaluation over a feature matrix of two
identical rows (2 entities, 2 runs, base seed 42) gives every run a
zero-variance score vector; the correlation matrix's diagonal entry (0, 0)
is NaN (`none`), not 1. -/
theorem corr_matrix_diag_counterexample :
    corr_matrix (stability_runs [[some 5], [some 5]] (1 / 50) 42 2) 0 0 = none ∧
    corr_matrix (stability_runs [[some 5], [some 5]] (1 / 50) 42 2) 0 0 ≠ some 1 := by
  obtain ⟨a, ha⟩ := run_scores_pair [some 5] (1 / 50) 42
  have h0 : (stability_runs [[some 5], [some 5]] (1 / 50) 42 2).getD 0 [] = [a, a] := by
    rw [stability_runs]
    rw [show List.range 2 = [0, 1] from rfl]
    simp only [List.map_cons, List.map_nil, List.getD_cons_zero]
    rw [show 42 + 0 = 42 from rfl]
    exact ha
  have hnone : corr_matrix (stability_runs [[some 5], [some 5]] (1 / 50) 42 2) 0 0 = none := by
    rw [corr_matrix, h0]
    exact pearson_self_none _ (s_xy_pair_self a)
  exact ⟨hnone, by rw [hnone]; simp⟩

/- ============================================================
   Claim C9 — top-K overlap of the stability evaluator
   ============================================================ -/

lemma insert_desc_perm (p : ℤ × ℝ) (l : List (ℤ × ℝ)) :
    List.Perm (insert_desc p l) (p :: l) := by
  induction l with
  | nil => exact List.Perm.refl _
  | cons q qs ih =>
      rw [insert_desc]
      by_cases h : q.2 < p.2
      · rw [if_pos h]
      · rw [if_neg h]
        exact List.Perm.trans (List.Perm.cons q ih) (List.Perm.swap p q qs)

lemma sort_desc_perm (l : List (ℤ × ℝ)) : List.Perm (sort_desc l) l := by
  induction l with
  | nil => exact List.Perm.refl _
  | cons p ps ih =>
      show List.Perm (insert_desc p (sort_desc ps)) (p :: ps)
      exact List.Perm.trans (insert_desc_perm p _) (List.Perm.cons p ih)

/-- The number of distinct ids in a top-K set: `min K (number of entities)`
when the ids are distinct and each entity has a score. -/
lemma top_set_card_eq (ids : List ℤ) (scores : List ℝ) (K : ℕ)
    (hnd : ids.Nodup) (hlen : ids.length = scores.length) :
    (top_set ids scores K).card = min K ids.length := by
  have hzip : (ids.zip scores).map Prod.fst = ids :=
    List.map_fst_zip _ _ (le_of_eq hlen)
  have hperm : List.Perm (sort_desc (ids.zip scores)) (ids.zip scores) := sort_desc_perm _
  have hfst : List.Perm ((sort_desc (ids.zip scores)).map Prod.fst) ids := by
    have h := hperm.map Prod.fst
    rw [hzip] at h
    exact h
  have hnd2 : ((sort_desc (ids.zip scores)).map Prod.fst).Nodup :=
    hfst.nodup_iff.mpr hnd
  have hmt : ((sort_desc (ids.zip scores)).take K).map Prod.fst =
      ((sort_desc (ids.zip scores)).map Prod.fst).take K := by
    rw [List.map_take]
  have hnd3 : (((sort_desc (ids.zip scores)).take K).map Prod.fst).Nodup := by
    rw [hmt]
    exact List.Nodup.sublist (List.take_sublist _ _) hnd2
  rw [top_set, List.toFinset_card_of_nodup hnd3, List.length_map, List.length_take,
    hperm.length_eq, List.length_zip, hlen, min_self, ← hlen]

lemma top_set_card_le (ids : List ℤ) (scores : List ℝ) (K : ℕ) :
    (top_set ids scores K).card ≤ K := by
  calc (top_set ids scores K).card
      ≤ (((sort_desc (ids.zip scores)).take K).map Prod.fst).length :=
        List.toFinset_card_le _
    _ = ((sort_desc (ids.zip scores)).take K).length := List.length_map _ _
    _ ≤ K := by rw [List.length_take]; exact min_le_left _ _

lemma top_overlap_bounds (A B : Finset ℤ) (K : ℕ) (hA : A.card ≤ K) (hK : 0 < K) :
    0 ≤ top_overlap A B K ∧ top_overlap A B K ≤ 1 := by
  constructor
  · exact div_nonneg (Nat.cast_nonneg _) (Nat.cast_nonneg _)
  · rw [top_overlap, div_le_one (by exact_mod_cast hK)]
    have hcard : (A ∩ B).card ≤ K :=
      le_trans (Finset.card_le_card Finset.inter_subset_left) hA
    exact_mod_cast hcard

/-- C9 amended: for every stability evaluation with N runs and top-K size
K ≥ 1, the evaluator produces exactly N-1 overlap ratios; the i-th equals
|top_K(i) ∩ top_K(i+1)| / K for the adjacent runs i, i+1 (top_K ranking by
score descending with a deterministic tie-break); every ratio lies in
[0, 1]; and two runs built with the identical seed have identical top-K
sets, so their ratio is 1.0 PROVIDED the matrix holds at least K entities
with distinct identifiers — with E < K entities the ratio is E/K < 1. -/
theorem top_overlaps_spec :
    (∀ (ids : List ℤ) (runs : List (List ℝ)) (K : ℕ),
      (top_overlaps ids runs K).length = runs.length - 1) ∧
    (∀ (ids : List ℤ) (runs : List (List ℝ)) (K i : ℕ), i < runs.length - 1 →
      (top_overlaps ids runs K).getD i 0 =
        ((top_set ids (runs.getD i []) K ∩ top_set ids (runs.getD (i + 1) []) K).card : ℝ) / K) ∧
    (∀ (ids : List ℤ) (runs : List (List ℝ)) (K : ℕ) (r : ℝ),
      r ∈ top_overlaps ids runs K → 0 < K → 0 ≤ r ∧ r ≤ 1) ∧
    (∀ (X : List (List (Option ℚ))) (c : ℚ) (seed K : ℕ) (ids : List ℤ),
      ids.Nodup → ids.length = (run_scores X c seed).length → K ≤ ids.length →
      0 < K →
      top_overlap (top_set ids (run_scores X c seed) K)
        (top_set ids (run_scores X c seed) K) K = 1) := by
  refine ⟨?_, ?_, ?_, ?_⟩
  · intro ids runs K
    rw [top_overlaps, List.length_map, List.length_range]
  · intro ids runs K i hi
    rw [top_overlaps, List.getD_eq_getElem?_getD, List.getElem?_map,
      List.getElem?_range hi]
    rfl
  · intro ids runs K r hr hK
    rw [top_overlaps] at hr
    rcases List.mem_map.mp hr with ⟨i, _, hrw⟩
    rw [← hrw]
    exact top_overlap_bounds _ _ K (top_set_card_le _ _ _) hK
  · intro X c seed K ids hnd hlen hK hK0
    rw [top_overlap, Finset.inter_self, top_set_card_eq ids _ K hnd hlen,
      min_eq_left hK]
    rw [div_self]
    exact_mod_cast hK0.ne'

/-- Witness for C9: the length/formula parts at the concrete run list
[[1], [2]], the bound part at its only member, and the identical-seed part
at a 2-entity matrix with K = 1. -/
theorem top_overlaps_spec_witness :
    (top_overlaps [7] [[1], [2]] 3).length = 1 ∧
    (top_overlaps [7] [[1], [2]] 3).getD 0 0 =
      ((top_set [7] [1] 3 ∩ top_set [7] [2] 3).card : ℝ) / 3 ∧
    (0 ≤ (top_overlaps [7] [[1], [2]] 3).getD 0 0 ∧
      (top_overlaps [7] [[1], [2]] 3).getD 0 0 ≤ 1) ∧
    top_overlap (top_set [1, 2] (run_scores [[some 1], [some 2]] (1 / 50) 7) 1)
      (top_set [1, 2] (run_scores [[some 1], [some 2]] (1 / 50) 7) 1) 1 = 1 := by
  have hlen : ([1, 2] : List ℤ).length =
      (run_scores [[some 1], [some 2]] (1 / 50) 7).length := by
    rw [run_scores, pipeline_score_samples]
    simp
  have hform := top_overlaps_spec.2.1 [7] [[1], [2]] 3 0 (by norm_num)
  have hmem : (top_overlaps [7] [[1], [2]] 3).getD 0 0 ∈ top_overlaps [7] [[1], [2]] 3 := by
    rw [top_overlaps]
    rw [show List.range (([[1], [2]] : List (List ℝ)).length - 1) = [0] from rfl]
    simp only [List.map_cons, List.map_nil, List.getD_cons_zero]
    exact List.mem_singleton.mpr rfl
  refine ⟨top_overlaps_spec.1 [7] [[1], [2]] 3, ?_, ?_, ?_⟩
  · show (top_overlaps [7] [[1], [2]] 3).getD 0 0 =
      ((top_set [7] (([[1], [2]] : List (List ℝ)).getD 0 []) 3 ∩
        top_set [7] (([[1], [2]] : List (List ℝ)).getD 1 []) 3).card : ℝ) / 3
    exact hform
  · exact top_overlaps_spec.2.2.1 [7] [[1], [2]] 3 _ hmem (by norm_num)
  · exact top_overlaps_spec.2.2.2 [[some 1], [some 2]] (1 / 50) 7 1 [1, 2]
      (by decide) hlen (by norm_num) (by norm_num)

/-- C9 counterexample: two adjacent runs built with the identical seed 7 on
a matrix of only 3 entities, with top-K size 50 (the source default):
both top sets are the same full 3-element id set, and the overlap ratio is
3/50, not 1.0. -/
theorem same_seed_overlap_counterexample :
    top_overlaps [10, 20, 30]
      [run_scores [[some 1], [some 2], [some 3]] (1 / 50) 7,
       run_scores [[some 1], [some 2], [some 3]] (1 / 50) 7] 50 = [3 / 50] ∧
    ((3 : ℝ) / 50) ≠ 1 := by
  constructor
  · have hlen : ([10, 20, 30] : List ℤ).length =
        (run_scores [[some 1], [some 2], [some 3]] (1 / 50) 7).length := by
      rw [run_scores, pipeline_score_samples]
      simp
    have hcard : (top_set [10, 20, 30]
        (run_scores [[some 1], [some 2], [some 3]] (1 / 50) 7) 50).card = 3 := by
      rw [top_set_card_eq _ _ _ (by decide) hlen]
      rfl
    rw [top_overlaps]
    rw [show List.range (([run_scores [[some 1], [some 2], [some 3]] (1 / 50) 7,
      run_scores [[some 1], [some 2], [some 3]] (1 / 50) 7] : List (List ℝ)).length - 1) =
      [0] from rfl]
    simp only [List.map_cons, List.map_nil, List.getD_cons_zero, List.getD_cons_succ]
    rw [top_overlap, Finset.inter_self, hcard]
    norm_num
  · norm_num
